import Mathlib

/-!
Verification of the Q1.15 quantizer of Simple-GAN-3x3_K14.

The numeric core of the repository is `float_to_q15_hex` in
`scripts/convert_params_to_hex.py` and the pair
`convert_to_fixed_point_q15` / `save_q15_hex` in
`parameters/extract_gan_parameters.py`.  Finite IEEE-754 doubles are a
subset of the rationals, and every arithmetic step of the code
(comparison against the exactly representable constants `-1.0` and
`0.999969482421875 = 32767/32768`, multiplication by the power of two
`32768`) is exact on doubles, so we embed the value domain as `ℚ`.
The Python built-in `round` and the NumPy `np.round` both round half
to even, which we spell out as `roundHalfEven`.
-/

/-- Round to the nearest integer, ties to even: the semantics of the
Python `round(x)` and the NumPy `np.round(x)` on an exact value. -/
def roundHalfEven (x : ℚ) : ℤ :=
  if x - ⌊x⌋ < 1/2 then ⌊x⌋
  else if 1/2 < x - ⌊x⌋ then ⌊x⌋ + 1
  else if ⌊x⌋ % 2 = 0 then ⌊x⌋ else ⌊x⌋ + 1

/-- One uppercase hexadecimal digit for `n < 16` (digits 0–9 then
letters A–F), as produced by the Python format code X. -/
def hexDigit (n : Nat) : Char :=
  if n < 10 then Char.ofNat (48 + n) else Char.ofNat (55 + n)

/-- The Python `format` call with format code 04X, for `n < 65536`:
exactly four uppercase hex digits, zero padded. -/
def toHex4 (n : Nat) : String :=
  String.mk [hexDigit (n / 4096 % 16), hexDigit (n / 256 % 16),
             hexDigit (n / 16 % 16), hexDigit (n % 16)]

/-- Lines 16–27 of `scripts/convert_params_to_hex.py`, operating on the
already-clamped value: scale by `32768` and round, re-clamp to
`[-32768, 32767]`, then add `65536` to negative results. -/
def q15_encode (value : ℚ) : ℤ :=
  let q15_val := roundHalfEven (value * 32768)
  let q15_val := if q15_val > 32767 then 32767
                 else if q15_val < -32768 then -32768 else q15_val
  if q15_val < 0 then q15_val + 65536 else q15_val

/-- The unsigned 16-bit word computed by `float_to_q15_hex`
(`scripts/convert_params_to_hex.py`, lines 11–27) before formatting:
clamp with `max(-1.0, min(value, 0.999969482421875))`, then the
scale/round/guard/encode steps above. -/
def float_to_q15_word (value : ℚ) : ℤ :=
  q15_encode (max (-1) (min value (32767/32768)))

/-- The function `float_to_q15_hex` (`scripts/convert_params_to_hex.py`,
lines 11–29): the word above rendered with format code 04X. -/
def float_to_q15_hex (value : ℚ) : String :=
  toHex4 (float_to_q15_word value).toNat

/-- The four-step algorithm of the spec for `quantize`, written from
the words of the spec (§4.1): clamp by the two comparisons of Step 1, scale
and round (Step 2, tie policy round half to even as the implementation
documents), secondary overflow guard (Step 3), twos-complement encode
(Step 4). -/
def spec_quantize (value : ℚ) : ℤ :=
  let c := if value < -1 then -1
           else if value > 32767/32768 then 32767/32768 else value
  let q := roundHalfEven (c * 32768)
  let g := if q > 32767 then 32767 else if q < -32768 then -32768 else q
  if g < 0 then g + 65536 else g

/-- The NumPy `astype(np.int16)` cast on an integer-valued float: wrap into
`[-32768, 32767]` modulo `2^16`. -/
def int16wrap (n : ℤ) : ℤ := (n + 32768) % 65536 - 32768

/-- The function `convert_to_fixed_point_q15`
(`parameters/extract_gan_parameters.py`,
lines 81–87, applied elementwise): `np.clip(value, -1.0, 0.999969)`,
scale by `32768`, `np.round`, cast to `np.int16`. -/
def convert_to_fixed_point_q15 (value : ℚ) : ℤ :=
  let value := max (-1) (min value (999969/1000000))
  int16wrap (roundHalfEven (value * 32768))

/-- The per-value encoding of `save_q15_hex`
(`parameters/extract_gan_parameters.py`, lines 93–100):
`hex_val = int(val) & 0xFFFF`, the Python `&` on a (possibly negative)
integer being the nonnegative residue modulo `65536`, printed with
format code 04X. -/
def save_q15_hex_word (value : ℚ) : ℤ :=
  (convert_to_fixed_point_q15 value) % 65536

/-- The hex line written by `save_q15_hex` for one value. -/
def save_q15_hex_str (value : ℚ) : String :=
  toHex4 (save_q15_hex_word value).toNat

/-- Decode an unsigned 16-bit word back to its signed 16-bit value
(twos complement: subtract `65536` when the word is at least `32768`). -/
def decodeQ15 (w : ℤ) : ℤ := if 32768 ≤ w then w - 65536 else w

/-- The value-processing part of `convert_file`
(`scripts/convert_params_to_hex.py`, lines 33–44): each whitespace
token either parses as a float (`some v`) or raises `ValueError`
(`none`), in which case a warning is printed and processing continues
with the remaining tokens; successfully parsed values are kept in
order. -/
def parse_tokens : List (Option ℚ) → List ℚ
  | [] => []
  | some v :: ts => v :: parse_tokens ts
  | none :: ts => parse_tokens ts

/-- Warnings printed by `convert_file`: one per unparsable token. -/
def warning_count : List (Option ℚ) → Nat
  | [] => 0
  | some _ :: ts => warning_count ts
  | none :: ts => warning_count ts + 1

/-- The hex lines written by `convert_file`
(`scripts/convert_params_to_hex.py`, lines 46–50): one line of
`float_to_q15_hex` per parsed value, in order. -/
def convert_file_lines (toks : List (Option ℚ)) : List String :=
  (parse_tokens toks).map float_to_q15_hex

/-- The loop body of `convert_file` on a list of already-parsed values
(the batch wrapper `quantize_sequence` of the spec). -/
def convert_values (vs : List ℚ) : List String :=
  vs.map float_to_q15_hex

/-- An uppercase hexadecimal digit character (`0`–`9` or `A`–`F`). -/
def isHexUpper (c : Char) : Bool :=
  (48 ≤ c.toNat && c.toNat ≤ 57) || (65 ≤ c.toNat && c.toNat ≤ 70)

/-! ### Python float semantics for non-finite inputs

`float_to_q15_hex` receives arbitrary doubles; NaN and the infinities
follow IEEE-754 comparison order, under which the Python two-argument
`min(a, b)` is `b if b < a else a` and `max(a, b)` is
`b if a < b else a`. -/

/-- A Python float: a finite value (embedded as an exact rational),
NaN, or an infinity. -/
inductive PyFloat where
  | fin (q : ℚ)
  | nan
  | inf
  | ninf
deriving DecidableEq

/-- IEEE-754 `<` on Python floats: any comparison with NaN is false. -/
def pyLt : PyFloat → PyFloat → Bool
  | .fin a, .fin b => a < b
  | .fin _, .inf => true
  | .ninf, .fin _ => true
  | .ninf, .inf => true
  | _, _ => false

/-- The Python builtin `min(a, b)`: `b if b < a else a`. -/
def pyMin (a b : PyFloat) : PyFloat := if pyLt b a then b else a

/-- The Python builtin `max(a, b)`: `b if b > a else a`. -/
def pyMax (a b : PyFloat) : PyFloat := if pyLt a b then b else a

/-- The function `float_to_q15_hex` on a full Python float: the clamp
`max(-1.0, min(value, 0.999969482421875))` with the Python `min`/`max`,
then the finite pipeline; `round` raises `TypeError`/`OverflowError`
on a non-finite argument, modelled as `none`. -/
def float_to_q15_hexP (value : PyFloat) : Option String :=
  match pyMax (.fin (-1)) (pyMin value (.fin (32767/32768))) with
  | .fin q => some (toHex4 (q15_encode q).toNat)
  | _ => none

/-- Variant of `float_to_q15_hex` without the secondary overflow guard of
lines 20–23: clamp, scale and round, twos-complement encode. -/
def float_to_q15_word_noguard (value : ℚ) : ℤ :=
  let c := max (-1) (min value (32767/32768))
  let q15_val := roundHalfEven (c * 32768)
  if q15_val < 0 then q15_val + 65536 else q15_val

/-! ### Helper lemmas about `roundHalfEven` -/

theorem roundHalfEven_mem (x : ℚ) :
    roundHalfEven x = ⌊x⌋ ∨ roundHalfEven x = ⌊x⌋ + 1 := by
  unfold roundHalfEven
  split
  · exact Or.inl rfl
  · split
    · exact Or.inr rfl
    · split
      · exact Or.inl rfl
      · exact Or.inr rfl

theorem le_roundHalfEven {m : ℤ} {x : ℚ} (h : (m : ℚ) ≤ x) :
    m ≤ roundHalfEven x := by
  have hf : m ≤ ⌊x⌋ := Int.le_floor.mpr h
  rcases roundHalfEven_mem x with h1 | h1 <;> omega

theorem roundHalfEven_le {n : ℤ} {x : ℚ} (h : x ≤ (n : ℚ)) :
    roundHalfEven x ≤ n := by
  rcases roundHalfEven_mem x with h1 | h1
  · have := Int.floor_mono h
    simp only [Int.floor_intCast] at this
    omega
  · by_cases hx : (n : ℚ) ≤ x
    · have hxn : x = (n : ℚ) := le_antisymm h hx
      have : roundHalfEven x = n := by
        unfold roundHalfEven
        simp [hxn]
      omega
    · push_neg at hx
      have : ⌊x⌋ < n := by
        have := Int.floor_mono h
        simp only [Int.floor_intCast] at this
        rcases lt_or_eq_of_le this with h2 | h2
        · exact h2
        · exfalso
          have := Int.floor_le x
          rw [h2] at this
          exact absurd this (not_le.mpr hx)
      omega

theorem roundHalfEven_eq_of {n : ℤ} {x : ℚ} (h1 : (n : ℚ) - 1/2 < x)
    (h2 : x ≤ (n : ℚ)) : roundHalfEven x = n := by
  have hlo := roundHalfEven_le h2
  have hhi : n - 1 < roundHalfEven x := by
    have hf : (n : ℚ) - 1 ≤ x := by linarith
    have h3 : ((n - 1 : ℤ) : ℚ) ≤ x := by push_cast; linarith
    have := le_roundHalfEven h3
    rcases roundHalfEven_mem x with hm | hm
    · by_cases he : ⌊x⌋ = n - 1
      · exfalso
        have hr : x - ⌊x⌋ > 1/2 := by
          rw [he]
          push_cast
          linarith
        unfold roundHalfEven at hm
        rw [if_neg (by linarith), if_pos hr] at hm
        omega
      · have := Int.le_floor.mpr h3
        omega
    · have := Int.le_floor.mpr h3
      omega
  omega

theorem abs_roundHalfEven_sub_le (x : ℚ) :
    |(roundHalfEven x : ℚ) - x| ≤ 1/2 := by
  have hfl := Int.floor_le x
  have hfu := Int.lt_floor_add_one x
  unfold roundHalfEven
  split
  · rename_i h
    rw [abs_le]
    constructor <;> linarith
  · rename_i h
    push_neg at h
    split
    · rename_i h2
      rw [abs_le]
      constructor <;> push_cast <;> linarith
    · rename_i h2
      push_neg at h2
      have heq : x - (⌊x⌋ : ℚ) = 1/2 := le_antisymm h2 h
      split <;> rw [abs_le] <;> constructor <;> push_cast <;> linarith

/-! ### Helper lemmas about the clamped, scaled value -/

theorem rhe_scaled_lo {c : ℚ} (h1 : -1 ≤ c) :
    -32768 ≤ roundHalfEven (c * 32768) := by
  apply le_roundHalfEven
  push_cast
  linarith

theorem rhe_scaled_hi {c : ℚ} (h2 : c ≤ 32767/32768) :
    roundHalfEven (c * 32768) ≤ 32767 := by
  apply roundHalfEven_le
  push_cast
  linarith

theorem neg_one_le_clamp (v hi : ℚ) : -1 ≤ max (-1) (min v hi) :=
  le_max_left _ _

theorem clamp_le_hi {v hi : ℚ} (h : -1 ≤ hi) : max (-1) (min v hi) ≤ hi :=
  max_le h (min_le_right _ _)

theorem guard_eq_self {q : ℤ} (h1 : -32768 ≤ q) (h2 : q ≤ 32767) :
    (if q > 32767 then 32767 else if q < -32768 then -32768 else q) = q := by
  rw [if_neg (by omega), if_neg (by omega)]

theorem q15_encode_eq {c : ℚ} (h1 : -1 ≤ c) (h2 : c ≤ 32767/32768) :
    q15_encode c = roundHalfEven (c * 32768) % 65536 := by
  have hlo := rhe_scaled_lo h1
  have hhi := rhe_scaled_hi h2
  unfold q15_encode
  dsimp only
  rw [guard_eq_self hlo hhi]
  split <;> omega

theorem q15_encode_range {c : ℚ} (h1 : -1 ≤ c) (h2 : c ≤ 32767/32768) :
    0 ≤ q15_encode c ∧ q15_encode c ≤ 65535 := by
  have hlo := rhe_scaled_lo h1
  have hhi := rhe_scaled_hi h2
  unfold q15_encode
  dsimp only
  rw [guard_eq_self hlo hhi]
  constructor <;> (split <;> omega)

theorem float_to_q15_word_range (v : ℚ) :
    0 ≤ float_to_q15_word v ∧ float_to_q15_word v ≤ 65535 :=
  q15_encode_range (neg_one_le_clamp _ _) (clamp_le_hi (by norm_num))

theorem hexDigit_isHexUpper : ∀ k, k < 16 → isHexUpper (hexDigit k) = true := by
  decide

theorem clamp_eq_ite (v : ℚ) :
    max (-1) (min v (32767/32768)) =
      if v < -1 then -1 else if v > 32767/32768 then 32767/32768 else v := by
  by_cases h1 : v < -1
  · rw [if_pos h1, min_eq_left (le_of_lt (lt_trans h1 (by norm_num))),
        max_eq_left h1.le]
  · rw [if_neg h1]
    by_cases h2 : v > 32767/32768
    · rw [if_pos h2, min_eq_right h2.le, max_eq_right (by norm_num)]
    · rw [if_neg h2, min_eq_left (not_lt.mp h2), max_eq_right (not_lt.mp h1)]

/-- C1: for every finite input, `float_to_q15_hex` computes exactly the
four-step algorithm of the spec — clamp to `[-1, 32767/32768]`, scale by
`32768` and round to nearest, clamp the integer to `[-32768, 32767]`,
add `65536` to a negative result — and the resulting unsigned word lies
in `[0, 65535]`. -/
theorem C1_quantize_follows_spec_steps (v : ℚ) :
    float_to_q15_word v = spec_quantize v ∧
    float_to_q15_hex v = toHex4 (spec_quantize v).toNat ∧
    0 ≤ float_to_q15_word v ∧ float_to_q15_word v ≤ 65535 := by
  have hrange := float_to_q15_word_range v
  have heq : float_to_q15_word v = spec_quantize v := by
    unfold float_to_q15_word spec_quantize q15_encode
    rw [clamp_eq_ite v]
  exact ⟨heq, by rw [float_to_q15_hex, heq], hrange.1, hrange.2⟩

/-- C4: the string returned by `float_to_q15_hex` always has length
exactly 4 and consists only of uppercase hexadecimal digit
characters. -/
theorem C4_hex_format_invariant (v : ℚ) :
    (float_to_q15_hex v).length = 4 ∧
    (float_to_q15_hex v).data.all isHexUpper = true := by
  unfold float_to_q15_hex toHex4
  refine ⟨rfl, ?_⟩
  simp only [List.all_cons, List.all_nil, Bool.and_true]
  rw [hexDigit_isHexUpper _ (Nat.mod_lt _ (by norm_num)),
      hexDigit_isHexUpper _ (Nat.mod_lt _ (by norm_num)),
      hexDigit_isHexUpper _ (Nat.mod_lt _ (by norm_num)),
      hexDigit_isHexUpper _ (Nat.mod_lt _ (by norm_num))]
  rfl

/-- C5: after the Step-1 clamp the rounded integer already lies in
`[-32768, 32767]`, so the secondary overflow guard of lines 20–23 never
changes the value: the function with the guard removed computes the
same word. -/
theorem C5_overflow_guard_unreachable (v : ℚ) :
    -32768 ≤ roundHalfEven (max (-1) (min v (32767/32768)) * 32768) ∧
    roundHalfEven (max (-1) (min v (32767/32768)) * 32768) ≤ 32767 ∧
    float_to_q15_word v = float_to_q15_word_noguard v := by
  have h1 := rhe_scaled_lo (neg_one_le_clamp v (32767/32768))
  have h2 := rhe_scaled_hi (clamp_le_hi (v := v) (by norm_num))
  refine ⟨h1, h2, ?_⟩
  unfold float_to_q15_word float_to_q15_word_noguard q15_encode
  dsimp only
  rw [guard_eq_self h1 h2]

/-- C2: quantization saturates at the Q1.15 boundaries:
`0.999969482421875 ↦ 0x7FFF`, `-1.0 ↦ 0x8000`, and every out-of-range
input behaves identically to the nearest boundary (in particular `1.5`
and `-2.0`). -/
theorem C2_saturation :
    float_to_q15_word (32767/32768) = 0x7FFF ∧
    float_to_q15_hex (32767/32768) = "7FFF" ∧
    float_to_q15_word (-1) = 0x8000 ∧
    float_to_q15_hex (-1) = "8000" ∧
    float_to_q15_hex (3/2) = float_to_q15_hex (32767/32768) ∧
    float_to_q15_hex (-2) = float_to_q15_hex (-1) ∧
    (∀ v : ℚ, 32767/32768 < v →
      float_to_q15_hex v = float_to_q15_hex (32767/32768)) ∧
    (∀ v : ℚ, v < -1 → float_to_q15_hex v = float_to_q15_hex (-1)) := by
  have hhi : ∀ v : ℚ, 32767/32768 < v →
      float_to_q15_hex v = float_to_q15_hex (32767/32768) := by
    intro v hv
    unfold float_to_q15_hex float_to_q15_word
    rw [min_eq_right hv.le, min_self]
  have hlo : ∀ v : ℚ, v < -1 → float_to_q15_hex v = float_to_q15_hex (-1) := by
    intro v hv
    unfold float_to_q15_hex float_to_q15_word
    rw [min_eq_left (le_of_lt (lt_trans hv (by norm_num))), max_eq_left hv.le,
        min_eq_left (by norm_num), max_self]
  have hw1 : float_to_q15_word (32767/32768) = 32767 := by
    norm_num [float_to_q15_word, q15_encode, roundHalfEven]
  have hw2 : float_to_q15_word (-1) = 32768 := by
    norm_num [float_to_q15_word, q15_encode, roundHalfEven]
  refine ⟨hw1, ?_, hw2, ?_, hhi (3/2) (by norm_num), hlo (-2) (by norm_num),
    hhi, hlo⟩
  · rw [float_to_q15_hex, hw1]
    decide
  · rw [float_to_q15_hex, hw2]
    decide

/-- C2 witness: the boundary-behaviour clauses of `C2_saturation`
instantiated at the concrete out-of-range inputs `2` and `-3`. -/
theorem C2_saturation_witness :
    float_to_q15_hex 2 = float_to_q15_hex (32767/32768) ∧
    float_to_q15_hex (-3) = float_to_q15_hex (-1) :=
  ⟨C2_saturation.2.2.2.2.2.2.1 2 (by norm_num),
   C2_saturation.2.2.2.2.2.2.2 (-3) (by norm_num)⟩

/-- C3: round-trip error bound — decoding the produced word back to a
signed 16-bit integer and dividing by `32768` lands within `1/32768` of
the clamped input. -/
theorem C3_roundtrip_error_bound (v : ℚ) :
    |((decodeQ15 (float_to_q15_word v) : ℚ))/32768 -
      max (-1) (min v (32767/32768))| ≤ 1/32768 := by
  set c := max (-1) (min v (32767/32768)) with hc
  have h1 : -1 ≤ c := neg_one_le_clamp v _
  have h2 : c ≤ 32767/32768 := clamp_le_hi (by norm_num)
  have hlo := rhe_scaled_lo h1
  have hhi := rhe_scaled_hi h2
  set q := roundHalfEven (c * 32768) with hq
  have hdec : decodeQ15 (float_to_q15_word v) = q := by
    rw [float_to_q15_word, ← hc, q15_encode_eq h1 h2, ← hq, decodeQ15]
    split <;> omega
  rw [hdec]
  have herr := abs_roundHalfEven_sub_le (c * 32768)
  rw [← hq, abs_le] at herr
  rw [abs_le]
  constructor <;> linarith [herr.1, herr.2]

/-- C6: the two quantizer implementations agree — for every input the
hex string of `float_to_q15_hex` equals the one produced by
`convert_to_fixed_point_q15` followed by the `& 0xFFFF` / `04X`
encoding of `save_q15_hex`, despite the differing clamp bounds
`0.999969482421875` and `0.999969`. -/
theorem C6_implementations_agree (v : ℚ) :
    float_to_q15_hex v = save_q15_hex_str v := by
  suffices h : float_to_q15_word v = save_q15_hex_word v by
    rw [float_to_q15_hex, save_q15_hex_str, h]
  have hc2lo : (-1 : ℚ) ≤ max (-1) (min v (999969/1000000)) :=
    neg_one_le_clamp v _
  have hc2hi : max (-1) (min v (999969/1000000)) ≤ 999969/1000000 :=
    clamp_le_hi (by norm_num)
  have hq2lo := rhe_scaled_lo hc2lo
  have hq2hi := rhe_scaled_hi (le_trans hc2hi (by norm_num))
  have hwrap : int16wrap (roundHalfEven (max (-1) (min v (999969/1000000)) * 32768))
      = roundHalfEven (max (-1) (min v (999969/1000000)) * 32768) := by
    unfold int16wrap
    omega
  rw [float_to_q15_word,
      q15_encode_eq (neg_one_le_clamp v _) (clamp_le_hi (by norm_num)),
      save_q15_hex_word, convert_to_fixed_point_q15]
  rw [hwrap]
  by_cases hv : v ≤ 999969/1000000
  · rw [min_eq_left hv, min_eq_left (le_trans hv (by norm_num))]
  · push_neg at hv
    have hb : (-1 : ℚ) < 999969/1000000 := by norm_num
    have hq2 : roundHalfEven (max (-1) (min v (999969/1000000)) * 32768)
        = 32767 := by
      rw [min_eq_right hv.le, max_eq_right hb.le]
      exact roundHalfEven_eq_of (by norm_num) (by norm_num)
    have hc1 : max (-1) (min v (32767/32768)) = min v (32767/32768) :=
      max_eq_right (le_min (by linarith) (by norm_num))
    have hm1 : (999969/1000000 : ℚ) < min v (32767/32768) :=
      lt_min hv (by norm_num)
    have hm2 : min v (32767/32768) ≤ 32767/32768 := min_le_right _ _
    have hq1 : roundHalfEven (max (-1) (min v (32767/32768)) * 32768)
        = 32767 := by
      rw [hc1]
      apply roundHalfEven_eq_of
      · push_cast
        linarith
      · push_cast
        linarith
    rw [hq1, hq2]

/-- C7: batch conversion maps `float_to_q15_hex` over the values in
input order, preserving length, and on `[0.0, 0.5, -0.5]` produces
exactly `["0000", "4000", "C000"]`. -/
theorem C7_batch_order_length :
    (∀ vs : List ℚ, (convert_values vs).length = vs.length) ∧
    (∀ (vs : List ℚ) (i : Nat),
      (convert_values vs)[i]? = (vs[i]?).map float_to_q15_hex) ∧
    convert_values [0, 1/2, -1/2] = ["0000", "4000", "C000"] := by
  refine ⟨fun vs => List.length_map vs float_to_q15_hex,
    fun vs i => List.getElem?_map float_to_q15_hex vs i, ?_⟩
  have h0 : float_to_q15_word 0 = 0 := by
    norm_num [float_to_q15_word, q15_encode, roundHalfEven]
  have h1 : float_to_q15_word (1/2) = 16384 := by
    norm_num [float_to_q15_word, q15_encode, roundHalfEven]
  have h2 : float_to_q15_word (-1/2) = 49152 := by
    norm_num [float_to_q15_word, q15_encode, roundHalfEven]
  simp only [convert_values, List.map_cons, List.map_nil, float_to_q15_hex,
    h0, h1, h2]
  decide

theorem parse_tokens_eq_filterMap (toks : List (Option ℚ)) :
    parse_tokens toks = toks.filterMap id := by
  induction toks with
  | nil => rfl
  | cons t ts ih => cases t <;> simp [parse_tokens, List.filterMap_cons, ih]

theorem parse_tokens_length_add (toks : List (Option ℚ)) :
    (parse_tokens toks).length + warning_count toks = toks.length := by
  induction toks with
  | nil => rfl
  | cons t ts ih =>
    cases t <;> simp only [parse_tokens, warning_count, List.length_cons] <;>
      omega

/-- C8: unparsable tokens are skipped with a warning and processing
continues; the output holds exactly one hex line per successfully
parsed token, in input order (parsed lines plus warnings account for
every token). -/
theorem C8_malformed_tokens_recoverable :
    (∀ toks : List (Option ℚ), parse_tokens toks = toks.filterMap id) ∧
    (∀ toks : List (Option ℚ),
      convert_file_lines toks = (toks.filterMap id).map float_to_q15_hex) ∧
    (∀ toks : List (Option ℚ),
      (convert_file_lines toks).length + warning_count toks = toks.length) ∧
    convert_file_lines [some 0, none, some (1/2)] = ["0000", "4000"] ∧
    warning_count [some 0, none, some (1/2)] = 1 := by
  refine ⟨parse_tokens_eq_filterMap,
    fun toks => by rw [convert_file_lines, parse_tokens_eq_filterMap],
    fun toks => by
      rw [convert_file_lines, List.length_map]
      exact parse_tokens_length_add toks, ?_, rfl⟩
  have h0 : float_to_q15_word 0 = 0 := by
    norm_num [float_to_q15_word, q15_encode, roundHalfEven]
  have h1 : float_to_q15_word (1/2) = 16384 := by
    norm_num [float_to_q15_word, q15_encode, roundHalfEven]
  simp only [convert_file_lines, parse_tokens, List.map_cons, List.map_nil,
    float_to_q15_hex, h0, h1]
  decide

theorem pyMin_fin (a b : ℚ) : pyMin (.fin a) (.fin b) = .fin (min a b) := by
  by_cases h : b < a
  · rw [pyMin, if_pos (by simpa [pyLt] using h), min_eq_right h.le]
  · rw [pyMin, if_neg (by simpa [pyLt] using h), min_eq_left (not_lt.mp h)]

theorem pyMax_fin (a b : ℚ) : pyMax (.fin a) (.fin b) = .fin (max a b) := by
  by_cases h : a < b
  · rw [pyMax, if_pos (by simpa [pyLt] using h), max_eq_right h.le]
  · rw [pyMax, if_neg (by simpa [pyLt] using h), max_eq_left (not_lt.mp h)]

/-- C9: non-finite inputs never raise — under the Python `min`/`max`
comparison order the clamp always yields a finite value — with
NaN ↦ `"8000"`, `+inf` ↦ `"7FFF"`, `-inf` ↦ `"8000"`, and finite
inputs behaving exactly as `float_to_q15_hex`. -/
theorem C9_nonfinite_total :
    float_to_q15_hexP .nan = some "8000" ∧
    float_to_q15_hexP .inf = some "7FFF" ∧
    float_to_q15_hexP .ninf = some "8000" ∧
    (∀ v : PyFloat, (float_to_q15_hexP v).isSome = true) ∧
    (∀ q : ℚ, float_to_q15_hexP (.fin q) = some (float_to_q15_hex q)) := by
  have hm1 : q15_encode (-1) = 32768 := by
    norm_num [q15_encode, roundHalfEven]
  have hp1 : q15_encode (32767/32768) = 32767 := by
    norm_num [q15_encode, roundHalfEven]
  have hnan : float_to_q15_hexP .nan = some (toHex4 (q15_encode (-1)).toNat) :=
    rfl
  have hninf : float_to_q15_hexP .ninf
      = some (toHex4 (q15_encode (-1)).toNat) := rfl
  have hinf : float_to_q15_hexP .inf
      = some (toHex4 (q15_encode (32767/32768)).toNat) := by
    rw [float_to_q15_hexP,
        show pyMin PyFloat.inf (.fin (32767/32768)) = .fin (32767/32768)
          from rfl,
        pyMax_fin, max_eq_right (by norm_num)]
  have hfin : ∀ q : ℚ, float_to_q15_hexP (.fin q)
      = some (float_to_q15_hex q) := by
    intro q
    rw [float_to_q15_hexP, pyMin_fin, pyMax_fin]
    rfl
  refine ⟨by rw [hnan, hm1]; decide, by rw [hinf, hp1]; decide,
    by rw [hninf, hm1]; decide, ?_, hfin⟩
  intro v
  cases v with
  | fin q => rw [hfin q]; rfl
  | nan => rw [hnan]; rfl
  | inf => rw [hinf]; rfl
  | ninf => rw [hninf]; rfl

/-- C10: the rounding-tie policy is round half to even, shared by both
implementations: a scaled value that is exactly a half-integer rounds
to the nearest even integer, so `1/65536 ↦ "0000"` and
`3/65536 ↦ "0002"` in both pipelines. -/
theorem C10_tie_round_half_even :
    (∀ (x : ℚ) (n : ℤ), x = n + 1/2 →
      roundHalfEven x % 2 = 0 ∧
      (roundHalfEven x = n ∨ roundHalfEven x = n + 1)) ∧
    float_to_q15_hex (1/65536) = "0000" ∧
    float_to_q15_hex (3/65536) = "0002" ∧
    save_q15_hex_str (1/65536) = "0000" ∧
    save_q15_hex_str (3/65536) = "0002" := by
  have htie : ∀ (x : ℚ) (n : ℤ), x = n + 1/2 →
      roundHalfEven x % 2 = 0 ∧
      (roundHalfEven x = n ∨ roundHalfEven x = n + 1) := by
    intro x n h
    have hfl : ⌊x⌋ = n := by
      rw [Int.floor_eq_iff]
      refine ⟨by rw [h]; linarith, by rw [h]; linarith⟩
    unfold roundHalfEven
    rw [hfl, h]
    rw [if_neg (by linarith), if_neg (by linarith)]
    constructor <;> (split <;> omega)
  have hw1 : float_to_q15_word (1/65536) = 0 := by
    norm_num [float_to_q15_word, q15_encode, roundHalfEven]
  have hw2 : float_to_q15_word (3/65536) = 2 := by
    norm_num [float_to_q15_word, q15_encode, roundHalfEven]
  have hs1 : save_q15_hex_word (1/65536) = 0 := by
    norm_num [save_q15_hex_word, convert_to_fixed_point_q15, int16wrap,
      roundHalfEven]
  have hs2 : save_q15_hex_word (3/65536) = 2 := by
    norm_num [save_q15_hex_word, convert_to_fixed_point_q15, int16wrap,
      roundHalfEven]
  refine ⟨htie, ?_, ?_, ?_, ?_⟩
  · rw [float_to_q15_hex, hw1]; decide
  · rw [float_to_q15_hex, hw2]; decide
  · rw [save_q15_hex_str, hs1]; decide
  · rw [save_q15_hex_str, hs2]; decide

/-- C10 witness: the tie clause of `C10_tie_round_half_even` at the
concrete half-integer `1/2`. -/
theorem C10_tie_witness :
    roundHalfEven (1/2) % 2 = 0 ∧
    (roundHalfEven (1/2) = 0 ∨ roundHalfEven (1/2) = 0 + 1) :=
  C10_tie_round_half_even.1 (1/2) 0 (by norm_num)
